import Mathlib

/-!
Verification of the voice-train speaker-recognition backend.

The development shallowly embeds the core of the repository in Lean:

* `backend/src/tflite_inference.py` — `TFLiteInferenceEngine` (model loading
  with dummy fallback, speaker classification by cosine similarity,
  enrollment, removal, status reporting);
* `backend/src/audio_processor.py` — `AudioProcessor` (voice-activity
  detection over 20 ms sub-frames, the chunk-processing pipeline, rolling
  statistics, the audio-level utility);
* `backend/src/feature_extractor.py` — `FeatureExtractor` (pre-emphasis,
  amplitude normalization, composite feature extraction);
* `backend/src/websocket_manager_new.py` — `WebSocketManager` (session
  registries, dashboard broadcast with per-session failure isolation,
  periodic metrics task lifecycle).

Modelling conventions: Python floats are modelled as rationals (`ℚ`);
external numeric primitives that produce irrational values (`np.sqrt`,
`np.log10`) are passed as oracle parameters `sq`, `lg : ℚ → ℚ`, as are the
external classifiers and transforms (`webrtcvad.Vad.is_speech`,
`librosa.feature.mfcc`, `librosa.feature.delta`, the TFLite interpreter and
`np.random.randn`).  Python dicts are association lists with insertion-order
iteration and in-place update; Python sets of sessions are lists of numeric
session identifiers.  Fallible code returns `Bool` or `Option` exactly where
the Python wraps the body in `try`/`except`.
-/

namespace VoiceTrain

/-- The literal `1e-8` guard added to every norm before division in
`tflite_inference.py`. -/
def normEps : ℚ := 1 / 100000000

/-- Dot product of two vectors (`np.dot` on flattened arrays). -/
def dotQ (a b : List ℚ) : ℚ := (List.zipWith (· * ·) a b).sum

/-- `v / (np.linalg.norm(v) + 1e-8)` with the norm delivered by the float
square-root oracle `sq` applied to the sum of squares. -/
def epsNormalize (sq : ℚ → ℚ) (v : List ℚ) : List ℚ :=
  v.map (· / (sq (dotQ v v) + normEps))

/-- Lookup in a Python dict modelled as an association list (first matching
key wins; dict keys are unique so at most one match exists). -/
def dictLookup {α : Type} (l : List (ℕ × α)) (k : ℕ) : Option α :=
  (l.find? (fun p => p.1 == k)).map Prod.snd

/-- Python dict assignment `d[k] = v`: replace in place if the key is
present, else append (insertion order is preserved). -/
def dictInsert {α : Type} (l : List (ℕ × α)) (k : ℕ) (v : α) : List (ℕ × α) :=
  if l.any (fun p => p.1 == k) then
    l.map (fun p => if p.1 == k then (k, v) else p)
  else l ++ [(k, v)]

/-- Python dict deletion `del d[k]` guarded by `if k in d` (removes the
entry when present, no-op otherwise). -/
def dictErase {α : Type} (l : List (ℕ × α)) (k : ℕ) : List (ℕ × α) :=
  l.filter (fun p => p.1 != k)

/-- Result record of `TFLiteInferenceEngine._classify_speaker`. -/
structure ClassifyResult where
  speakerName : String
  confidence : ℚ
  speakerId : Option ℕ
  deriving Repr, DecidableEq

/-- `max(similarities.keys(), key=...)` over a Python dict in iteration
order: keep the first element, replacing it only on a strictly greater
value (Python's `max` keeps the earlier element on ties). -/
def pickBest (p : ℕ × ℚ) (l : List (ℕ × ℚ)) : ℕ × ℚ :=
  l.foldl (fun b q => if q.2 > b.2 then q else b) p

/-- `TFLiteInferenceEngine._classify_speaker` (tflite_inference.py lines
197-236): empty cache short-circuits; otherwise the candidate embedding and
every cached embedding are normalized by `norm + 1e-8`, cosine similarities
are collected per speaker id, the best (first maximal) similarity is
selected, and the 0.7 threshold decides between the `Unknown` near-miss
result (carrying the best similarity) and the matched speaker. -/
def classifySpeaker (sq : ℚ → ℚ) (labels : List (ℕ × String))
    (cache : List (ℕ × List ℚ)) (emb : List ℚ) : ClassifyResult :=
  match cache with
  | [] => ⟨"Unknown", 0, none⟩
  | c :: cs =>
    let embN := epsNormalize sq emb
    let simOf : ℕ × List ℚ → ℕ × ℚ :=
      fun p => (p.1, dotQ embN (epsNormalize sq p.2))
    let best := pickBest (simOf c) (cs.map simOf)
    if best.2 < 7/10 then ⟨"Unknown", best.2, none⟩
    else ⟨(dictLookup labels best.1).getD ("Speaker_" ++ toString best.1),
          best.2, some best.1⟩

/-- Elementwise arithmetic mean `np.mean(np.stack(vs, axis=0), axis=0)` of a
non-empty list of equal-length vectors. -/
def meanVec : List (List ℚ) → List ℚ
  | [] => []
  | v :: vs =>
    (vs.foldl (fun acc w => List.zipWith (· + ·) acc w) v).map
      (· / ((vs.length : ℚ) + 1))

/-- Inference statistics dict of `TFLiteInferenceEngine`. -/
structure InferenceStats where
  totalInferences : ℕ
  totalInferenceTime : ℚ
  averageInferenceTime : ℚ
  deriving Repr, DecidableEq

/-- State of `TFLiteInferenceEngine`: `interp` is whether a real TFLite
interpreter handle is held (`self.interpreter is not None`), `hasDetails`
whether input/output details are populated, plus the label table, embedding
cache and the `is_model_loaded` flag. -/
structure Engine where
  interp : Bool
  hasDetails : Bool
  speakerLabels : List (ℕ × String)
  embeddingCache : List (ℕ × List ℚ)
  isModelLoaded : Bool
  stats : InferenceStats
  deriving Repr, DecidableEq

/-- `TFLiteInferenceEngine.__init__`: no interpreter, empty tables, flag
down. -/
def engineInit : Engine :=
  ⟨false, false, [], [], false, ⟨0, 0, 0⟩⟩

/-- `TFLiteInferenceEngine._create_dummy_model` (lines 65-90): populates
simulated input/output details and the four default labels and raises the
`is_model_loaded` flag; the interpreter handle is left untouched. -/
def createDummyModel (s : Engine) : Engine :=
  { s with hasDetails := true,
           speakerLabels :=
             [(0, "Unknown"), (1, "Speaker_1"), (2, "Speaker_2"),
              (3, "Speaker_3")],
           isModelLoaded := true }

/-- `TFLiteInferenceEngine.load_model` (lines 34-63).  `fileExists` models
`self.model_path.exists()`, `loadOk` whether constructing the interpreter
and allocating tensors succeeds, `labelsFile` the optional content of
`speaker_labels.json` (its absence or a parse error yields the default
`{0: "Unknown"}` table, per `_load_speaker_labels`).  A missing file or a
load failure both fall into `_create_dummy_model`. -/
def loadModel (fileExists loadOk : Bool)
    (labelsFile : Option (List (ℕ × String))) (s : Engine) : Engine :=
  if !fileExists then createDummyModel s
  else if loadOk then
    { s with interp := true, hasDetails := true,
             speakerLabels := labelsFile.getD [(0, "Unknown")],
             isModelLoaded := true }
  else createDummyModel s

/-- `TFLiteInferenceEngine.is_loaded` (lines 293-295). -/
def Engine.isLoaded (s : Engine) : Bool := s.isModelLoaded

/-- The dict returned by `TFLiteInferenceEngine.get_stats` (lines 284-291). -/
structure EngineStats where
  modelLoaded : Bool
  enrolledSpeakers : ℕ
  speakerLabels : List (ℕ × String)
  inferenceStats : InferenceStats
  deriving Repr, DecidableEq

/-- `TFLiteInferenceEngine.get_stats`. -/
def getStats (s : Engine) : EngineStats :=
  ⟨s.isModelLoaded, s.embeddingCache.length, s.speakerLabels, s.stats⟩

/-- `TFLiteInferenceEngine._dummy_inference` (lines 185-195): a random
vector (oracle `rand`) normalized by `norm + 1e-8`. -/
def dummyInference (sq : ℚ → ℚ) (rand : List ℚ) : List ℚ :=
  epsNormalize sq rand

/-- The embedding selection inside `TFLiteInferenceEngine.predict` (lines
119-126): dummy inference when no interpreter handle is held, otherwise
the real forward pass (oracle `realOut`). -/
def chooseEmbedding (s : Engine) (sq : ℚ → ℚ) (rand realOut : List ℚ) :
    List ℚ :=
  if s.interp then realOut else dummyInference sq rand

/-- `TFLiteInferenceEngine.predict` (lines 108-140), with the inference-time
bookkeeping elided: guard on the loaded flag, pick the embedding source by
interpreter presence, classify. -/
def predict (s : Engine) (sq : ℚ → ℚ) (rand realOut : List ℚ) :
    ClassifyResult :=
  if !s.isModelLoaded then ⟨"Unknown", 0, none⟩
  else classifySpeaker sq s.speakerLabels s.embeddingCache
    (chooseEmbedding s sq rand realOut)

/-- `TFLiteInferenceEngine.enroll_speaker` (lines 242-265).  An empty list
hits `embeddings[0]`, raising `IndexError`, which the `except` turns into
`False` with no state change.  With more than one embedding `np.stack`
requires equal shapes (a mismatch raises, again giving `False`); the mean
(or the single embedding) is normalized by `norm + 1e-8` and stored, and
the label table is updated. -/
def enrollSpeaker (s : Engine) (sq : ℚ → ℚ) (speakerId : ℕ)
    (speakerName : String) (embeddings : List (List ℚ)) : Bool × Engine :=
  match embeddings with
  | [] => (false, s)
  | e :: es =>
    match es with
    | [] =>
      let n := epsNormalize sq e
      (true, { s with embeddingCache := dictInsert s.embeddingCache speakerId n,
                      speakerLabels := dictInsert s.speakerLabels speakerId speakerName })
    | _ :: _ =>
      if es.all (fun v => v.length == e.length) then
        let n := epsNormalize sq (meanVec (e :: es))
        (true, { s with embeddingCache := dictInsert s.embeddingCache speakerId n,
                        speakerLabels := dictInsert s.speakerLabels speakerId speakerName })
      else (false, s)

/-- `TFLiteInferenceEngine.remove_speaker` (lines 267-273). -/
def removeSpeaker (s : Engine) (speakerId : ℕ) : Engine :=
  { s with embeddingCache := dictErase s.embeddingCache speakerId,
           speakerLabels := dictErase s.speakerLabels speakerId }

/-! ## audio_processor.py -/

/-- `int(sample_rate * 20 / 1000) * 2`: the 20 ms sub-frame size in bytes
used by `AudioProcessor._detect_voice_activity` (2 bytes per sample). -/
def vadFrameSize (sampleRate : ℕ) : ℕ := sampleRate * 20 / 1000 * 2

/-- The start offsets produced by Python's
`range(0, len(audio_data) - frame_size, frame_size)`: `max 0` of the
ceiling of `(n - fs) / fs` iterations (natural subtraction supplies the
`max 0`), each multiplied by the step. -/
def vadFrameStarts (n fs : ℕ) : List ℕ :=
  (List.range ((n - fs + (fs - 1)) / fs)).map (· * fs)

/-- `AudioProcessor._detect_voice_activity` (audio_processor.py lines
122-152).  `audioData` is the raw byte buffer; `classify` models
`self.vad.is_speech` on one sub-frame, `none` meaning it raised (the inner
`except: continue` then skips both counters).  A zero frame size would make
`range` itself raise, landing in the outer fail-open `return True`.  With
no counted sub-frames the decision is `false`; otherwise it is
`voice_frames / total_frames > 0.3`. -/
def detectVoiceActivity (sampleRate : ℕ) (classify : List ℤ → Option Bool)
    (audioData : List ℤ) : Bool :=
  let fs := vadFrameSize sampleRate
  if fs = 0 then true
  else
    let counts := (vadFrameStarts audioData.length fs).foldl
      (fun (acc : ℕ × ℕ) i =>
        let frame := (audioData.drop i).take fs
        if frame.length = fs then
          match classify frame with
          | some true => (acc.1 + 1, acc.2 + 1)
          | some false => (acc.1, acc.2 + 1)
          | none => acc
        else acc)
      (0, 0)
    if counts.2 = 0 then false
    else (counts.1 : ℚ) / (counts.2 : ℚ) > 3/10

/-- `np.frombuffer(audio_data, dtype=np.int16)` on a byte list of even
length: little-endian signed 16-bit decode of consecutive byte pairs. -/
def decodeInt16 : List ℤ → List ℤ
  | b0 :: b1 :: rest =>
    (let u := b0 + 256 * b1; if u ≥ 32768 then u - 65536 else u)
      :: decodeInt16 rest
  | _ => []

/-- The rolling statistics dict of `AudioProcessor`. -/
structure ProcessingStats where
  totalChunksProcessed : ℕ
  totalProcessingTime : ℚ
  averageProcessingTime : ℚ
  voiceActivityRatio : ℚ
  deriving Repr, DecidableEq

/-- `AudioProcessor.__init__` statistics. -/
def statsInit : ProcessingStats := ⟨0, 0, 0, 0⟩

/-- `AudioProcessor._update_stats` (lines 154-170): bump the chunk count
and cumulative time, recompute the mean, and move the voice-activity ratio
by an exponential moving average with smoothing factor `alpha = 0.1` toward
`1.0` or `0.0` according to `hasVoice`. -/
def updateStats (s : ProcessingStats) (processingTime : ℚ) (hasVoice : Bool) :
    ProcessingStats :=
  let total := s.totalChunksProcessed + 1
  let cum := s.totalProcessingTime + processingTime
  { totalChunksProcessed := total
    totalProcessingTime := cum
    averageProcessingTime := cum / (total : ℚ)
    voiceActivityRatio :=
      1/10 * (if hasVoice then 1 else 0) + (1 - 1/10) * s.voiceActivityRatio }

/-- The dict returned from one `AudioProcessor.process_audio_chunk` call. -/
inductive ChunkOutcome where
  | audioProcessedNoVoice (processingTime : ℚ)
  | recognitionResult (speaker : String) (confidence : ℚ) (processingTime : ℚ)
  | errorOutcome
  deriving Repr, DecidableEq

/-- `AudioProcessor.process_audio_chunk` (audio_processor.py lines 64-120).
Oracles: `classify` is the VAD sub-frame classifier, `mfccF` is
`feature_extractor.extract_mfcc` (librosa), `speakerOut` the name/confidence
pair delivered by `inference_engine.predict`, and `t` the measured
wall-clock time.  Structure: bail out when uninitialized; a byte buffer of
odd length makes `np.frombuffer` raise (caught as an error outcome); a
decoded chunk shorter than `CHUNK_SIZE` returns nothing; a no-voice chunk
returns the no-voice outcome immediately; missing or empty features return
nothing; only the full voice path updates the statistics, always with
`has_voice = True`. -/
def processAudioChunk (isInitialized : Bool) (sampleRate chunkSize : ℕ)
    (classify : List ℤ → Option Bool)
    (mfccF : List ℚ → Option (List (List ℚ)))
    (speakerOut : String × ℚ) (t : ℚ)
    (s : ProcessingStats) (audioData : List ℤ) :
    Option ChunkOutcome × ProcessingStats :=
  if !isInitialized then (none, s)
  else if audioData.length % 2 ≠ 0 then (some .errorOutcome, s)
  else
    let audioFloat := (decodeInt16 audioData).map (fun v : ℤ => (v : ℚ) / 32768)
    if audioFloat.length < chunkSize then (none, s)
    else if !detectVoiceActivity sampleRate classify audioData then
      (some (.audioProcessedNoVoice t), s)
    else
      match mfccF audioFloat with
      | none => (none, s)
      | some feats =>
        if feats.isEmpty || feats.all List.isEmpty then (none, s)
        else
          (some (.recognitionResult speakerOut.1 speakerOut.2 t),
           updateStats s t true)

/-- `np.mean` of a rational list (empty input handled by the caller). -/
def meanQ (l : List ℚ) : ℚ := l.sum / (l.length : ℚ)

/-- The `rms = np.sqrt(np.mean(audio_float ** 2))` value computed by
`AudioProcessor.get_audio_level`, with `sq` the float square-root oracle. -/
def rmsOf (sq : ℚ → ℚ) (audioData : List ℤ) : ℚ :=
  sq (meanQ (((decodeInt16 audioData).map (fun v : ℤ => (v : ℚ) / 32768)).map
    (fun x => x ^ 2)))

/-- `AudioProcessor.get_audio_level` (audio_processor.py lines 172-192).
An odd-length buffer makes `np.frombuffer` raise and the `except` returns
`0.0`; an empty buffer makes `np.mean` produce NaN, for which `rms > 0` is
false, returning `0.0`.  Otherwise: RMS of the normalized samples; if it is
positive, `20 * log10(rms)` rescaled from the [-60 dB, 0 dB] range into
[0, 1] and clamped there; if RMS is zero the logarithm branch is skipped
and the level is exactly `0.0`. -/
def getAudioLevel (sq lg : ℚ → ℚ) (audioData : List ℤ) : ℚ :=
  if audioData.length % 2 ≠ 0 then 0
  else if audioData.isEmpty then 0
  else
    let rms := rmsOf sq audioData
    if 0 < rms then
      let dbLevel := 20 * lg rms
      max 0 (min 1 ((dbLevel + 60) / 60))
    else 0

/-! ## feature_extractor.py -/

/-- The amplitude normalization step of `FeatureExtractor.preprocess_audio`
(feature_extractor.py lines 130-132): divide by the peak absolute value
when it is positive, else leave the signal unchanged. -/
def amplitudeNormalize (audio : List ℚ) : List ℚ :=
  let m := (audio.map (fun x => |x|)).foldr max 0
  if 0 < m then audio.map (· / m) else audio

/-- The pre-emphasis step of `FeatureExtractor.preprocess_audio` (lines
134-136): `np.append(audio[0], audio[1:] - 0.97 * audio[:-1])`, i.e. the
first sample unchanged and `y[i] = x[i] - 0.97 * x[i-1]` afterwards. -/
def preEmphasis : List ℚ → List ℚ
  | [] => []
  | x :: xs => x :: List.zipWith (fun cur prev => cur - 97/100 * prev) xs (x :: xs)

/-- `FeatureExtractor.preprocess_audio` (lines 127-142): amplitude
normalization first, then pre-emphasis.  On an empty signal `np.max` raises
and the `except` returns the input unchanged. -/
def preprocessAudio (audio : List ℚ) : List ℚ :=
  match audio with
  | [] => []
  | _ :: _ => preEmphasis (amplitudeNormalize audio)

/-- Row-wise concatenation `np.concatenate([a, b, c], axis=1)` of three
matrices with equal row counts (rows are time steps, columns coefficients). -/
def rowConcat3 : List (List ℚ) → List (List ℚ) → List (List ℚ) → List (List ℚ)
  | a :: as_, b :: bs, c :: cs => (a ++ b ++ c) :: rowConcat3 as_ bs cs
  | _, _, _ => []

/-- The dict built by `FeatureExtractor.extract_comprehensive_features`
(the spectral side channel is outside the claims and elided). -/
structure ComprehensiveFeatures where
  mfcc : List (List ℚ)
  deltaMfcc : List (List ℚ)
  delta2Mfcc : List (List ℚ)
  combined : List (List ℚ)
  deriving Repr, DecidableEq

/-- `FeatureExtractor.extract_comprehensive_features` (feature_extractor.py
lines 153-193): preprocess, extract the cepstral matrix (`mfccF` is the
librosa-backed `extract_mfcc`, `none` when it fails or the input is empty),
compute delta and delta-delta via `deltaF` (`compute_delta_features`), and
concatenate all three along the coefficient axis. -/
def extractComprehensiveFeatures (mfccF : List ℚ → Option (List (List ℚ)))
    (deltaF : List (List ℚ) → List (List ℚ)) (audio : List ℚ) :
    Option ComprehensiveFeatures :=
  let a := preprocessAudio audio
  match mfccF a with
  | none => none
  | some m =>
    let d1 := deltaF m
    let d2 := deltaF d1
    some ⟨m, d1, d2, rowConcat3 m d1 d2⟩

/-! ## websocket_manager_new.py

Sessions are numeric identifiers.  `active` models `active_connections`
(audio ingest), `dashboard` models `dashboard_connections` (observers),
`clientInfo` the `client_info` dict restricted to its `messages_sent`
counter, and `task` whether `metrics_update_task` currently holds a running
task (`Some task` vs `None`).  The metrics snapshot payloads carry no
information relevant to the claims and are elided. -/

/-- State of `WebSocketManager`. -/
structure Mgr where
  active : List ℕ
  dashboard : List ℕ
  clientInfo : List (ℕ × ℕ)
  task : Bool
  deriving Repr, DecidableEq

/-- `WebSocketManager.start_metrics_updates` (lines 201-204): create the
task only when none is running. -/
def startMetrics (s : Mgr) : Mgr :=
  if s.task then s else { s with task := true }

/-- `WebSocketManager.stop_metrics_updates` (lines 206-210): cancel the
task when one is running. -/
def stopMetrics (s : Mgr) : Mgr :=
  if s.task then { s with task := false } else s

/-- `WebSocketManager.disconnect` (lines 109-118): discard the session from
both registries and from `client_info`, then stop the metrics task iff no
connection of either kind remains. -/
def disconnectFn (s : Mgr) (ws : ℕ) : Mgr :=
  let a := s.active.filter (fun c => c != ws)
  let d := s.dashboard.filter (fun c => c != ws)
  let ci := s.clientInfo.filter (fun p => p.1 != ws)
  let s1 : Mgr := { active := a, dashboard := d, clientInfo := ci, task := s.task }
  if a.isEmpty && d.isEmpty then stopMetrics s1 else s1

/-- `WebSocketManager.connect` (lines 71-85), the initial-snapshot send
assumed successful: add to the audio registry (set semantics: no duplicate)
and start the metrics task when this is the first audio connection. -/
def connectAudioFn (s : Mgr) (ws : ℕ) : Mgr :=
  let a := if s.active.contains ws then s.active else ws :: s.active
  let s1 : Mgr := { s with active := a }
  if a.length = 1 then startMetrics s1 else s1

/-- `WebSocketManager.connect_dashboard` (lines 87-107), the initial
snapshot send assumed successful: add to the dashboard registry and to
`client_info` with zero counters, and start the metrics task when this is
the first dashboard connection. -/
def connectDashFn (s : Mgr) (ws : ℕ) : Mgr :=
  let d := if s.dashboard.contains ws then s.dashboard else ws :: s.dashboard
  let s1 : Mgr := { s with dashboard := d,
                           clientInfo := dictInsert s.clientInfo ws 0 }
  if d.length = 1 then startMetrics s1 else s1

/-- Increment `client_info[ws]["messages_sent"]` when the session has an
entry (the `if websocket in self.client_info` guard). -/
def sendIncr (ci : List (ℕ × ℕ)) (ws : ℕ) : List (ℕ × ℕ) :=
  ci.map (fun p => if p.1 == ws then (p.1, p.2 + 1) else p)

/-- `WebSocketManager.broadcast_to_dashboard` (lines 151-168).  `fail ws`
models `ws.send_text` raising.  The loop sends to every dashboard session
independently, counting successful sends in `client_info` and collecting
failed sessions; afterwards each failed session is disconnected.  Returns
the list of sessions the message was delivered to together with the new
state. -/
def broadcastToDashboard (s : Mgr) (fail : ℕ → Bool) : List ℕ × Mgr :=
  if s.dashboard.isEmpty then ([], s)
  else
    let step := fun (acc : List ℕ × List ℕ × List (ℕ × ℕ)) (c : ℕ) =>
      if fail c then (acc.1, acc.2.1 ++ [c], acc.2.2)
      else (acc.1 ++ [c], acc.2.1, sendIncr acc.2.2 c)
    let r := s.dashboard.foldl step ([], [], s.clientInfo)
    let s1 : Mgr := { s with clientInfo := r.2.2 }
    (r.1, r.2.1.foldl disconnectFn s1)

/-- Manager actions for the temporal model.  `tick` is one iteration of
`_metrics_update_loop` (lines 212-225), which refreshes the metrics and
broadcasts a `system_status` message to observers; `reqMetrics` is the
`request_metrics_update` inbound message, which sends (not broadcasts) a
`system_status` to the single requesting session. -/
inductive MgrAct where
  | connectAudio (ws : ℕ)
  | connectDash (ws : ℕ)
  | disconnect (ws : ℕ)
  | broadcastDash
  | tick
  | reqMetrics (ws : ℕ)
  deriving Repr, DecidableEq

/-- Whether an action is a session connect (the only task-starting ones). -/
def MgrAct.isConnect : MgrAct → Bool
  | .connectAudio _ => true
  | .connectDash _ => true
  | _ => false

/-- One manager transition.  A `tick` can only fire while the metrics task
is running: the loop body that emits `system_status` broadcasts lives
inside the task that `stop_metrics_updates` cancels. -/
inductive MgrStep : Mgr → MgrAct → Mgr → Prop where
  | connectAudio (s : Mgr) (ws : ℕ) :
      MgrStep s (.connectAudio ws) (connectAudioFn s ws)
  | connectDash (s : Mgr) (ws : ℕ) :
      MgrStep s (.connectDash ws) (connectDashFn s ws)
  | disconnect (s : Mgr) (ws : ℕ) :
      MgrStep s (.disconnect ws) (disconnectFn s ws)
  | broadcastDash (s : Mgr) (fail : ℕ → Bool) :
      MgrStep s .broadcastDash (broadcastToDashboard s fail).2
  | tick (s : Mgr) (fail : ℕ → Bool) (h : s.task = true) :
      MgrStep s .tick (broadcastToDashboard s fail).2
  | reqMetrics (s : Mgr) (ws : ℕ) :
      MgrStep s (.reqMetrics ws) s

/-- A run of the manager through a list of actions. -/
inductive MgrRun : Mgr → List MgrAct → Mgr → Prop where
  | nil (s : Mgr) : MgrRun s [] s
  | cons {s s1 s2 : Mgr} {a : MgrAct} {acts : List MgrAct} :
      MgrStep s a s1 → MgrRun s1 acts s2 → MgrRun s (a :: acts) s2

/-! ## Theorems -/

/-- C9: `enroll_speaker` with an empty embedding list hits `embeddings[0]`,
whose `IndexError` is caught before any state mutation; the call returns
`False` and both the embedding cache and the label table are exactly the
prior ones — no partial update of engine state occurs. -/
theorem enroll_empty_returns_false_no_state_change (s : Engine)
    (sq : ℚ → ℚ) (speakerId : ℕ) (speakerName : String) :
    enrollSpeaker s sq speakerId speakerName [] = (false, s) ∧
    (enrollSpeaker s sq speakerId speakerName []).2.embeddingCache
      = s.embeddingCache ∧
    (enrollSpeaker s sq speakerId speakerName []).2.speakerLabels
      = s.speakerLabels :=
  ⟨rfl, rfl, rfl⟩

/-- C1 counterexample: starting from a fresh engine, the state reached by
`load_model` when the model file is absent (the `_create_dummy_model`
fallback) and the state reached by a successful real load report the very
same load status — `is_loaded()` and the `model_loaded` field of
`get_stats()` are `true` in both — so a caller querying the load status
cannot distinguish real inference from the stand-in; the only state that
differs is the internal interpreter handle, which those accessors do not
expose. -/
theorem fallback_flag_equals_real_flag :
    (loadModel false true none engineInit).isLoaded = true ∧
    (loadModel true true none engineInit).isLoaded = true ∧
    (loadModel false true none engineInit).isLoaded
      = (loadModel true true none engineInit).isLoaded ∧
    (getStats (loadModel false true none engineInit)).modelLoaded
      = (getStats (loadModel true true none engineInit)).modelLoaded ∧
    (loadModel false true none engineInit).interp = false ∧
    (loadModel true true none engineInit).interp = true :=
  ⟨rfl, rfl, rfl, rfl, rfl, rfl⟩

/-- C1 amended: when the model file is absent, `load_model` falls back to
the dummy model and `predict` then sources its embedding from
`_dummy_inference` (the norm-guarded random stand-in); the fallback raises
the same `is_model_loaded` flag as a real load, so `is_loaded()` and
`get_stats().model_loaded` read `true` in the degraded mode exactly as in
the real mode and do not distinguish the two — the stand-in is recorded
only in the unexposed interpreter handle. -/
theorem fallback_mode_and_flag (ok : Bool)
    (labelsFile : Option (List (ℕ × String))) (sq : ℚ → ℚ)
    (rand realOut : List ℚ) :
    (loadModel false ok labelsFile engineInit).isLoaded = true ∧
    (getStats (loadModel false ok labelsFile engineInit)).modelLoaded = true ∧
    (loadModel false ok labelsFile engineInit).interp = false ∧
    (loadModel true true labelsFile engineInit).isLoaded = true ∧
    (loadModel true true labelsFile engineInit).interp = true ∧
    chooseEmbedding (loadModel false ok labelsFile engineInit) sq rand realOut
      = dummyInference sq rand :=
  ⟨rfl, rfl, rfl, rfl, rfl, rfl⟩

/-- C4 counterexample: `preprocess_audio` amplitude-normalizes FIRST and
pre-emphasizes SECOND.  On the signal `[1, -1]` the code path yields
`[1, -1.97]` (peak of the not-yet-emphasized signal is 1), while the
claimed order — pre-emphasis first, then division by the peak of the
result (1.97) — would yield `[100/197, -1]`; the two disagree, and the
composite extraction path visibly feeds the code-order signal to the
cepstral transform. -/
theorem preprocess_order_counterexample :
    preprocessAudio [1, -1] = [1, -197/100] ∧
    amplitudeNormalize (preEmphasis [1, -1]) = [100/197, -1] ∧
    preprocessAudio [1, -1] ≠ amplitudeNormalize (preEmphasis [1, -1]) ∧
    extractComprehensiveFeatures (fun a => some [a]) (fun m => m) [1, -1]
      = some ⟨[[1, -197/100]], [[1, -197/100]], [[1, -197/100]],
              [[1, -197/100, 1, -197/100, 1, -197/100]]⟩ := by
  have h1 : preprocessAudio [1, -1] = [1, -197/100] := by
    norm_num [preprocessAudio, amplitudeNormalize, preEmphasis]
  have h2 : amplitudeNormalize (preEmphasis [1, -1]) = [100/197, -1] := by
    norm_num [amplitudeNormalize, preEmphasis, abs_of_pos]
  refine ⟨h1, h2, ?_, ?_⟩
  · rw [h1, h2]
    norm_num
  · simp [extractComprehensiveFeatures, h1, rowConcat3]

/-- C4 amended: the composite extraction path first amplitude-normalizes
the signal (divide by peak absolute value, no-op when the peak is zero),
THEN applies pre-emphasis (`y[i] = x[i] - 0.97*x[i-1]`, first sample
unchanged), then computes the cepstral matrix of that signal, its delta and
delta-delta matrices, and concatenates all three along the coefficient
axis (failing extraction propagates as `none`). -/
theorem comprehensive_features_pipeline
    (mfccF : List ℚ → Option (List (List ℚ)))
    (deltaF : List (List ℚ) → List (List ℚ)) (audio : List ℚ) :
    preprocessAudio audio = preEmphasis (amplitudeNormalize audio) ∧
    extractComprehensiveFeatures mfccF deltaF audio
      = (mfccF (preEmphasis (amplitudeNormalize audio))).map
          (fun m => ⟨m, deltaF m, deltaF (deltaF m),
                     rowConcat3 m (deltaF m) (deltaF (deltaF m))⟩) := by
  have h : preprocessAudio audio = preEmphasis (amplitudeNormalize audio) := by
    cases audio with
    | nil => simp [preprocessAudio, amplitudeNormalize, preEmphasis]
    | cons x xs => rfl
  refine ⟨h, ?_⟩
  rw [← h]
  cases hm : mfccF (preprocessAudio audio) <;>
    simp [extractComprehensiveFeatures, hm]

set_option maxRecDepth 8000 in
/-- C2: the voice-activity loop `range(0, len(audio_data) - frame_size,
frame_size)` has an exclusive stop of `len - frame_size`, so when the
buffer length is an exact multiple of the sub-frame size the final
COMPLETE sub-frame is never classified — contradicting the documented
behavior that only the non-divisible tail remainder is discarded.  At
16 kHz the 20 ms sub-frame is 640 bytes; a 640-byte buffer holds exactly
one complete sub-frame, which an always-speech classifier would make
ratio 1 > 0.3, yet the code classifies zero sub-frames and returns
`false`.  A 1920-byte buffer (three complete sub-frames) likewise only
visits the starts `[0, 640]`. -/
theorem vad_drops_last_complete_subframe :
    vadFrameSize 16000 = 640 ∧
    (List.replicate 640 (0 : ℤ)).length / vadFrameSize 16000 = 1 ∧
    detectVoiceActivity 16000 (fun _ => some true) (List.replicate 640 0)
      = false ∧
    vadFrameStarts 1920 640 = [0, 640] := by
  refine ⟨rfl, by decide, by decide, by decide⟩

/-- Decoding an even run of zero bytes yields zero samples. -/
theorem decodeInt16_zeros (n : ℕ) :
    decodeInt16 (List.replicate (2 * n) 0) = List.replicate n 0 := by
  induction n with
  | zero => rfl
  | succ k ih =>
    have h2 : 2 * (k + 1) = (2 * k) + 1 + 1 := by ring
    rw [h2, List.replicate_succ, List.replicate_succ, decodeInt16]
    norm_num [ih, List.replicate_succ]

/-- The RMS of an all-zero even-length buffer is `sq 0`, hence `0` for any
square-root oracle sending `0` to `0`. -/
theorem rms_of_zeros (sq : ℚ → ℚ) (h0 : sq 0 = 0) (n : ℕ) :
    rmsOf sq (List.replicate (2 * n) 0) = 0 := by
  unfold rmsOf meanQ
  rw [decodeInt16_zeros]
  simp only [List.map_replicate]
  norm_num
  exact h0

/-- C8: the audio-level utility never leaves `[0, 1]`; an all-zero
(silent) buffer yields exactly `0.0`; whenever the RMS is not positive the
result is `0.0` with the logarithm branch never taken (the statement holds
for every `log10` oracle `lg`, so `lg` is never consulted there); and on a
positive RMS the level is `20 * log10(rms)` rescaled from [-60 dB, 0 dB]
into [0, 1] and clamped. -/
theorem audio_level_clamped_silence_zero (sq lg : ℚ → ℚ)
    (audioData : List ℤ) (n : ℕ) (h0 : sq 0 = 0) :
    0 ≤ getAudioLevel sq lg audioData ∧
    getAudioLevel sq lg audioData ≤ 1 ∧
    getAudioLevel sq lg (List.replicate (2 * n) 0) = 0 ∧
    (¬ 0 < rmsOf sq audioData → getAudioLevel sq lg audioData = 0) ∧
    (0 < rmsOf sq audioData → audioData.length % 2 = 0 →
      audioData.isEmpty = false →
      getAudioLevel sq lg audioData
        = max 0 (min 1 ((20 * lg (rmsOf sq audioData) + 60) / 60))) := by
  refine ⟨?_, ?_, ?_, ?_, ?_⟩
  · simp only [getAudioLevel]
    split_ifs <;> norm_num
  · simp only [getAudioLevel]
    split_ifs <;> norm_num
  · rcases Nat.eq_zero_or_pos n with hn | hn
    · subst hn; rfl
    · obtain ⟨k, rfl⟩ : ∃ k, n = k + 1 := ⟨n - 1, by omega⟩
      have h2 : 2 * (k + 1) = 2 * k + 1 + 1 := by ring
      have hne : (List.replicate (2 * (k + 1)) (0 : ℤ)).isEmpty = false := by
        rw [h2, List.replicate_succ]; rfl
      have hlen : (List.replicate (2 * (k + 1)) (0 : ℤ)).length % 2 = 0 := by
        simp [Nat.mul_mod_right]
      have hrms := rms_of_zeros sq h0 (k + 1)
      simp only [getAudioLevel]
      rw [if_neg (by simp [hlen]), hne]
      simp [hrms]
  · intro h
    simp only [getAudioLevel]
    split_ifs with h1 h2
    · rfl
    · rfl
    · rfl
  · intro hpos hlen hne
    simp only [getAudioLevel]
    rw [if_neg (by simp [hlen]), hne]
    simp [hpos]

/-- C8 witness: a concrete square-root oracle sending `0` to `0` and the
two-byte silent buffer evaluate the claim at a concrete input. -/
theorem audio_level_witness :
    (fun _ : ℚ => (0 : ℚ)) 0 = 0 ∧
    getAudioLevel (fun _ => 0) (fun _ => 0) (List.replicate (2 * 1) 0) = 0 :=
  ⟨rfl,
   (audio_level_clamped_silence_zero (fun _ => 0) (fun _ => 0) [] 1 rfl).2.2.1⟩

/-- C10: the no-voice outcome of `process_audio_chunk` leaves the
statistics untouched — the final state is either the incoming one or the
result of `_update_stats` with `has_voice = True` (the only call site),
and a chunk that fails voice-activity detection always returns the prior
statistics; every EMA update therefore uses sample value `1.0`, and from
any ratio at most `1` the tracked `voice_activity_ratio` is nondecreasing
and stays at most `1` — it can only move toward `1`. -/
theorem no_voice_chunk_keeps_stats (isInitialized : Bool)
    (sampleRate chunkSize : ℕ) (classify : List ℤ → Option Bool)
    (mfccF : List ℚ → Option (List (List ℚ))) (speakerOut : String × ℚ)
    (t : ℚ) (s : ProcessingStats) (audioData : List ℤ) :
    ((processAudioChunk isInitialized sampleRate chunkSize classify mfccF
        speakerOut t s audioData).2 = s ∨
     (processAudioChunk isInitialized sampleRate chunkSize classify mfccF
        speakerOut t s audioData).2 = updateStats s t true) ∧
    (detectVoiceActivity sampleRate classify audioData = false →
      (processAudioChunk isInitialized sampleRate chunkSize classify mfccF
        speakerOut t s audioData).2 = s) ∧
    (updateStats s t true).voiceActivityRatio
      = 1/10 * 1 + (1 - 1/10) * s.voiceActivityRatio ∧
    (s.voiceActivityRatio ≤ 1 →
      s.voiceActivityRatio ≤ (updateStats s t true).voiceActivityRatio ∧
      (updateStats s t true).voiceActivityRatio ≤ 1) := by
  refine ⟨?_, ?_, ?_, ?_⟩
  · simp only [processAudioChunk]
    repeat' split
    all_goals first | (left; rfl) | (right; rfl)
  · intro hd
    simp only [processAudioChunk, hd, Bool.not_false, if_true]
    split_ifs <;> rfl
  · simp [updateStats]
  · intro h1
    have hv : (updateStats s t true).voiceActivityRatio
        = 1/10 * 1 + (1 - 1/10) * s.voiceActivityRatio := by
      simp [updateStats]
    rw [hv]
    constructor <;> linarith

/-- C10 witness: a 100-byte silent chunk whose classifier reports no
speech on every sub-frame takes the no-voice path and returns the initial
statistics unchanged. -/
theorem no_voice_chunk_witness :
    detectVoiceActivity 1000 (fun _ => none) (List.replicate 100 0)
      = false ∧
    (processAudioChunk true 1000 0 (fun _ => none) (fun _ => none)
        ("x", 0) 1 statsInit (List.replicate 100 0)).2 = statsInit ∧
    statsInit.voiceActivityRatio
      ≤ (updateStats statsInit 1 true).voiceActivityRatio :=
  ⟨by decide,
   (no_voice_chunk_keeps_stats true 1000 0 (fun _ => none) (fun _ => none)
      ("x", 0) 1 statsInit (List.replicate 100 0)).2.1 (by decide),
   ((no_voice_chunk_keeps_stats true 1000 0 (fun _ => none) (fun _ => none)
      ("x", 0) 1 statsInit (List.replicate 100 0)).2.2.2 (by norm_num [statsInit])).1⟩

/-- `pickBest` dominates the seed and every listed candidate. -/
theorem pickBest_le (p : ℕ × ℚ) (l : List (ℕ × ℚ)) :
    ∀ q ∈ p :: l, q.2 ≤ (pickBest p l).2 := by
  induction l generalizing p with
  | nil =>
    intro q hq
    rcases List.mem_singleton.mp hq with rfl
    exact le_refl _
  | cons r rs ih =>
    intro q hq
    have hstep : pickBest p (r :: rs) = pickBest (if r.2 > p.2 then r else p) rs := rfl
    rw [hstep]
    have hle : q.2 ≤ (if r.2 > p.2 then r else p).2 ∨
        q ∈ (if r.2 > p.2 then r else p) :: rs := by
      rcases List.mem_cons.mp hq with rfl | hq1
      · split_ifs with hc
        · exact Or.inl (le_of_lt hc)
        · exact Or.inr (List.mem_cons_self _ _)
      · rcases List.mem_cons.mp hq1 with rfl | hq2
        · split_ifs with hc
          · exact Or.inr (List.mem_cons_self _ _)
          · exact Or.inl (le_of_not_lt hc)
        · exact Or.inr (List.mem_cons_of_mem _ hq2)
    rcases hle with hle | hmem
    · exact le_trans hle (ih _ _ (List.mem_cons_self _ _))
    · exact ih _ _ hmem

/-- The element selected by `pickBest` is the seed or one of the
candidates. -/
theorem pickBest_mem (p : ℕ × ℚ) (l : List (ℕ × ℚ)) :
    pickBest p l ∈ p :: l := by
  induction l generalizing p with
  | nil => exact List.mem_singleton.mpr rfl
  | cons r rs ih =>
    have hstep : pickBest p (r :: rs) = pickBest (if r.2 > p.2 then r else p) rs := rfl
    rw [hstep]
    have h1 := ih (if r.2 > p.2 then r else p)
    rcases List.mem_cons.mp h1 with heq | hmem
    · rw [heq]
      split_ifs with hc
      · exact List.mem_cons_of_mem _ (List.mem_cons_self _ _)
      · exact List.mem_cons_self _ _
    · exact List.mem_cons_of_mem _ (List.mem_cons_of_mem _ hmem)

/-- C5: on a non-empty cache, `_classify_speaker` reports as confidence the
maximum cosine similarity (of the `norm + 1e-8` normalized candidate
against every normalized cached profile, in cache order): the confidence
is an upper bound of all per-profile similarities and is attained by one
of them.  If that maximum is below the 0.7 threshold the result is label
`"Unknown"` with the maximum itself as confidence (not zero) and no
speaker id; otherwise the result carries the matched profile's id, its
label (with the `Speaker_<id>` default), and the similarity as
confidence. -/
theorem classify_max_similarity_threshold (sq : ℚ → ℚ)
    (labels : List (ℕ × String)) (c : ℕ × List ℚ) (cs : List (ℕ × List ℚ))
    (emb : List ℚ) :
    (∀ q ∈ (c :: cs).map (fun p =>
        (p.1, dotQ (epsNormalize sq emb) (epsNormalize sq p.2))),
      q.2 ≤ (classifySpeaker sq labels (c :: cs) emb).confidence) ∧
    (∃ q ∈ (c :: cs).map (fun p =>
        (p.1, dotQ (epsNormalize sq emb) (epsNormalize sq p.2))),
      q.2 = (classifySpeaker sq labels (c :: cs) emb).confidence) ∧
    (((classifySpeaker sq labels (c :: cs) emb).confidence < 7/10 ∧
      (classifySpeaker sq labels (c :: cs) emb).speakerName = "Unknown" ∧
      (classifySpeaker sq labels (c :: cs) emb).speakerId = none) ∨
     (7/10 ≤ (classifySpeaker sq labels (c :: cs) emb).confidence ∧
      ∃ q ∈ (c :: cs).map (fun p =>
          (p.1, dotQ (epsNormalize sq emb) (epsNormalize sq p.2))),
        q.2 = (classifySpeaker sq labels (c :: cs) emb).confidence ∧
        (classifySpeaker sq labels (c :: cs) emb).speakerId = some q.1 ∧
        (classifySpeaker sq labels (c :: cs) emb).speakerName
          = (dictLookup labels q.1).getD ("Speaker_" ++ toString q.1))) := by
  set f : ℕ × List ℚ → ℕ × ℚ :=
    fun p => (p.1, dotQ (epsNormalize sq emb) (epsNormalize sq p.2)) with hf
  have hmap : (c :: cs).map f = f c :: cs.map f := rfl
  set best := pickBest (f c) (cs.map f) with hbest
  have hconf : (classifySpeaker sq labels (c :: cs) emb).confidence = best.2 := by
    simp only [classifySpeaker, hbest, hf]
    split_ifs <;> rfl
  have hub : ∀ q ∈ (c :: cs).map f, q.2 ≤ best.2 := by
    rw [hmap]
    exact pickBest_le (f c) (cs.map f)
  have hattain : best ∈ (c :: cs).map f := by
    rw [hmap]
    exact pickBest_mem (f c) (cs.map f)
  refine ⟨?_, ?_, ?_⟩
  · intro q hq
    rw [hconf]
    exact hub q hq
  · exact ⟨best, hattain, hconf.symm⟩
  · by_cases hth : best.2 < 7/10
    · left
      have hres : classifySpeaker sq labels (c :: cs) emb
          = ⟨"Unknown", best.2, none⟩ := by
        simp only [classifySpeaker, hbest, hf]
        rw [if_pos hth]
      rw [hres]
      exact ⟨hth, rfl, rfl⟩
    · right
      have hres : classifySpeaker sq labels (c :: cs) emb
          = ⟨(dictLookup labels best.1).getD ("Speaker_" ++ toString best.1),
             best.2, some best.1⟩ := by
        simp only [classifySpeaker, hbest, hf]
        rw [if_neg hth]
      rw [hres]
      exact ⟨le_of_not_lt hth, best, hattain, rfl, rfl, rfl⟩

/-- C5 witness: one enrolled profile identical to the candidate (with a
unit square-root oracle) attains the maximum similarity. -/
theorem classify_witness :
    ∃ q ∈ ([((5 : ℕ), [(1 : ℚ)])]).map (fun p =>
        (p.1, dotQ (epsNormalize (fun _ => 1) [1])
          (epsNormalize (fun _ => 1) p.2))),
      q.2 = (classifySpeaker (fun _ => 1) [(5, "Bob")] [(5, [1])] [1]).confidence :=
  (classify_max_similarity_threshold (fun _ => 1) [(5, "Bob")] (5, [1]) []
    [1]).2.1

/-- Looking up the just-assigned key of a dict returns the new value. -/
theorem dictLookup_insert {α : Type} (l : List (ℕ × α)) (k : ℕ) (v : α) :
    dictLookup (dictInsert l k v) k = some v := by
  by_cases hany : l.any (fun p => p.1 == k) = true
  · rw [dictInsert, if_pos hany]
    unfold dictLookup
    induction l with
    | nil => simp at hany
    | cons p ps ih =>
      rw [List.map_cons]
      by_cases hp : (p.1 == k) = true
      · rw [if_pos hp, List.find?_cons_of_pos _ (by simp)]
        rfl
      · rw [if_neg hp, List.find?_cons_of_neg _ (by simpa using hp)]
        apply ih
        rcases List.any_eq_true.mp hany with ⟨q, hq, hqk⟩
        rcases List.mem_cons.mp hq with rfl | hq1
        · exact absurd hqk (by simpa using hp)
        · exact List.any_eq_true.mpr ⟨q, hq1, hqk⟩
  · rw [dictInsert, if_neg hany]
    unfold dictLookup
    induction l with
    | nil => simp
    | cons p ps ih =>
      have hp : ¬ (p.1 == k) = true := by
        intro hc
        exact hany (List.any_eq_true.mpr ⟨p, List.mem_cons_self _ _, hc⟩)
      have hcons := List.find?_cons_of_neg (p := fun q : ℕ × α => q.1 == k)
        (a := p) (ps ++ [(k, v)]) hp
      rw [List.cons_append, hcons]
      apply ih
      intro hc
      rcases List.any_eq_true.mp hc with ⟨q, hq, hqk⟩
      exact hany (List.any_eq_true.mpr ⟨q, List.mem_cons_of_mem _ hq, hqk⟩)

/-- Dict assignment preserves key uniqueness: replacement keeps the key
list unchanged and a fresh key is appended exactly once. -/
theorem dictInsert_keys_nodup {α : Type} (l : List (ℕ × α)) (k : ℕ) (v : α)
    (h : (l.map Prod.fst).Nodup) :
    ((dictInsert l k v).map Prod.fst).Nodup := by
  by_cases hany : l.any (fun p => p.1 == k) = true
  · rw [dictInsert, if_pos hany]
    have hkeys : (l.map (fun p => if p.1 == k then (k, v) else p)).map Prod.fst
        = l.map Prod.fst := by
      rw [List.map_map]
      apply List.map_congr_left
      intro p _
      by_cases hp : (p.1 == k) = true
      · have hpk : p.1 = k := by simpa using hp
        simp [Function.comp, hp, hpk]
      · simp [Function.comp, hp]
    rw [hkeys]
    exact h
  · rw [dictInsert, if_neg hany]
    have hk : k ∉ l.map Prod.fst := by
      intro hc
      rcases List.mem_map.mp hc with ⟨p, hp, hpk⟩
      exact hany (List.any_eq_true.mpr ⟨p, hp, by simpa using hpk⟩)
    simp only [List.map_append, List.map_cons, List.map_nil]
    exact List.Nodup.append h (List.nodup_singleton k)
      (by simpa [List.disjoint_singleton] using hk)

/-- The mean of a single vector is the vector itself. -/
theorem meanVec_single (e : List ℚ) : meanVec [e] = e := by
  simp [meanVec]

/-- C7: after a successful `enroll_speaker` call with a non-empty list of
equal-length embeddings, the cache entry under the speaker id is the
`norm + 1e-8` normalized arithmetic mean of the supplied embeddings, the
label table maps the id to the supplied name, and (given the dict
invariant held before) the cache still holds at most one entry per speaker
identifier. -/
theorem enroll_stores_normalized_mean (s : Engine) (sq : ℚ → ℚ)
    (speakerId : ℕ) (speakerName : String) (e : List ℚ)
    (es : List (List ℚ)) (hlen : ∀ v ∈ es, v.length = e.length)
    (hnd : (s.embeddingCache.map Prod.fst).Nodup) :
    (enrollSpeaker s sq speakerId speakerName (e :: es)).1 = true ∧
    dictLookup
        (enrollSpeaker s sq speakerId speakerName (e :: es)).2.embeddingCache
        speakerId
      = some (epsNormalize sq (meanVec (e :: es))) ∧
    dictLookup
        (enrollSpeaker s sq speakerId speakerName (e :: es)).2.speakerLabels
        speakerId
      = some speakerName ∧
    (((enrollSpeaker s sq speakerId speakerName (e :: es)).2.embeddingCache.map
        Prod.fst).Nodup) := by
  cases es with
  | nil =>
    simp only [enrollSpeaker]
    refine ⟨?_, ?_, ?_, ?_⟩
    · trivial
    · rw [meanVec_single]
      exact dictLookup_insert _ _ _
    · exact dictLookup_insert _ _ _
    · exact dictInsert_keys_nodup _ _ _ hnd
  | cons e2 es2 =>
    have hall : (e2 :: es2).all (fun v => v.length == e.length) = true := by
      rw [List.all_eq_true]
      intro v hv
      simpa using hlen v hv
    simp only [enrollSpeaker, hall, if_pos]
    refine ⟨?_, ?_, ?_, ?_⟩
    · trivial
    · exact dictLookup_insert _ _ _
    · exact dictLookup_insert _ _ _
    · exact dictInsert_keys_nodup _ _ _ hnd

/-- C7 witness: enrolling one embedding into an engine whose cache already
holds one other speaker stores the normalized mean under the new id. -/
theorem enroll_witness :
    dictLookup
        (enrollSpeaker ⟨false, false, [], [(0, [1])], false, ⟨0, 0, 0⟩⟩
          (fun _ => 0) 4 "Alice" [[2]]).2.embeddingCache 4
      = some (epsNormalize (fun _ => 0) (meanVec [[2]])) :=
  (enroll_stores_normalized_mean
    ⟨false, false, [], [(0, [1])], false, ⟨0, 0, 0⟩⟩ (fun _ => 0) 4 "Alice"
    [2] [] (by simp) (by simp)).2.1

/-- `disconnect` filters the audio registry. -/
theorem disconnectFn_active (s : Mgr) (ws : ℕ) :
    (disconnectFn s ws).active = s.active.filter (fun c => c != ws) := by
  simp only [disconnectFn, stopMetrics]
  split_ifs <;> rfl

/-- `disconnect` filters the observer registry. -/
theorem disconnectFn_dashboard (s : Mgr) (ws : ℕ) :
    (disconnectFn s ws).dashboard = s.dashboard.filter (fun c => c != ws) := by
  simp only [disconnectFn, stopMetrics]
  split_ifs <;> rfl

/-- `disconnect` drops the session's `client_info` entry. -/
theorem disconnectFn_clientInfo (s : Mgr) (ws : ℕ) :
    (disconnectFn s ws).clientInfo
      = s.clientInfo.filter (fun p => p.1 != ws) := by
  simp only [disconnectFn, stopMetrics]
  split_ifs <;> rfl

/-- `stop_metrics_updates` always leaves no running task. -/
theorem stopMetrics_task (s : Mgr) : (stopMetrics s).task = false := by
  unfold stopMetrics
  split_ifs with h
  · rfl
  · simpa using h

/-- `disconnect` never starts a task. -/
theorem disconnectFn_task_false (s : Mgr) (ws : ℕ) (h : s.task = false) :
    (disconnectFn s ws).task = false := by
  simp only [disconnectFn]
  split_ifs
  · exact stopMetrics_task _
  · exact h

/-- Membership in a filtered list of sessions evaluates the predicate. -/
theorem contains_filter_of_mem (l : List ℕ) (f : ℕ → Bool) (c : ℕ)
    (hc : c ∈ l) : (l.filter f).contains c = f c := by
  cases hfc : f c with
  | true => exact List.elem_eq_true_of_mem (List.mem_filter.mpr ⟨hc, hfc⟩)
  | false =>
    apply Bool.eq_false_iff.mpr
    intro hcon
    have hmem : c ∈ l.filter f := List.elem_iff.mp hcon
    have hfc2 := (List.mem_filter.mp hmem).2
    rw [hfc] at hfc2
    exact Bool.false_ne_true hfc2

/-- Folding `disconnect` over a list of sessions filters the observer
registry by non-membership. -/
theorem foldl_disconnect_dashboard (ds : List ℕ) (s : Mgr) :
    (ds.foldl disconnectFn s).dashboard
      = s.dashboard.filter (fun c => !ds.contains c) := by
  induction ds generalizing s with
  | nil => simp
  | cons d rest ih =>
    rw [List.foldl_cons, ih, disconnectFn_dashboard, List.filter_filter]
    apply List.filter_congr
    intro c _
    by_cases h1 : c = d <;> by_cases h2 : c ∈ rest <;> simp [h1, h2]

/-- Folding `disconnect` over a list of sessions filters the audio
registry by non-membership. -/
theorem foldl_disconnect_active (ds : List ℕ) (s : Mgr) :
    (ds.foldl disconnectFn s).active
      = s.active.filter (fun c => !ds.contains c) := by
  induction ds generalizing s with
  | nil => simp
  | cons d rest ih =>
    rw [List.foldl_cons, ih, disconnectFn_active, List.filter_filter]
    apply List.filter_congr
    intro c _
    by_cases h1 : c = d <;> by_cases h2 : c ∈ rest <;> simp [h1, h2]

/-- Folding `disconnect` over a list of sessions filters `client_info` by
non-membership of the key. -/
theorem foldl_disconnect_clientInfo (ds : List ℕ) (s : Mgr) :
    (ds.foldl disconnectFn s).clientInfo
      = s.clientInfo.filter (fun p => !ds.contains p.1) := by
  induction ds generalizing s with
  | nil => simp
  | cons d rest ih =>
    rw [List.foldl_cons, ih, disconnectFn_clientInfo, List.filter_filter]
    apply List.filter_congr
    intro p _
    by_cases h1 : p.1 = d <;> by_cases h2 : p.1 ∈ rest <;> simp [h1, h2]

/-- Folding `disconnect` preserves the absence of a metrics task. -/
theorem foldl_disconnect_task_false (ds : List ℕ) (s : Mgr)
    (h : s.task = false) : (ds.foldl disconnectFn s).task = false := by
  induction ds generalizing s with
  | nil => exact h
  | cons d rest ih =>
    rw [List.foldl_cons]
    exact ih _ (disconnectFn_task_false s d h)

/-- Unrolling the send loop of `broadcast_to_dashboard`: the delivered
list collects the non-failing sessions in order, the disconnected list the
failing ones, and the counters are bumped once per successful send. -/
theorem broadcast_send_loop (fail : ℕ → Bool) (l : List ℕ)
    (del dis : List ℕ) (ci : List (ℕ × ℕ)) :
    l.foldl (fun (acc : List ℕ × List ℕ × List (ℕ × ℕ)) (c : ℕ) =>
        if fail c then (acc.1, acc.2.1 ++ [c], acc.2.2)
        else (acc.1 ++ [c], acc.2.1, sendIncr acc.2.2 c)) (del, dis, ci)
      = (del ++ l.filter (fun c => !fail c), dis ++ l.filter fail,
         (l.filter (fun c => !fail c)).foldl sendIncr ci) := by
  induction l generalizing del dis ci with
  | nil => simp
  | cons c rest ih =>
    by_cases hc : fail c = true
    · rw [List.foldl_cons, if_pos hc, ih]
      simp [hc, List.filter_cons]
    · have hcf : fail c = false := by simpa using hc
      rw [List.foldl_cons, if_neg (by simp [hcf]), ih]
      simp [hcf, List.filter_cons]

/-- C6: broadcasting to the observer registry is independent per session —
the message is delivered to exactly the sessions whose send does not fail,
regardless of failures elsewhere in the registry — and afterwards exactly
the failed sessions have been disconnected: they are removed from the
observer registry, from the audio registry, and from `client_info`, while
the surviving sessions keep their (incremented) entries. -/
theorem broadcast_independent_removes_failed (s : Mgr) (fail : ℕ → Bool) :
    (broadcastToDashboard s fail).1 = s.dashboard.filter (fun c => !fail c) ∧
    (broadcastToDashboard s fail).2.dashboard
      = s.dashboard.filter (fun c => !fail c) ∧
    (broadcastToDashboard s fail).2.active
      = s.active.filter (fun c => !((s.dashboard.filter fail).contains c)) ∧
    (broadcastToDashboard s fail).2.clientInfo
      = ((s.dashboard.filter (fun c => !fail c)).foldl sendIncr
          s.clientInfo).filter
          (fun p => !((s.dashboard.filter fail).contains p.1)) := by
  by_cases hd : s.dashboard.isEmpty = true
  · have hnil : s.dashboard = [] := by
      cases h : s.dashboard with
      | nil => rfl
      | cons a l => rw [h] at hd; simp at hd
    rw [broadcastToDashboard, if_pos hd]
    simp [hnil]
  · rw [broadcastToDashboard, if_neg hd]
    simp only [broadcast_send_loop, List.nil_append]
    refine ⟨?_, ?_, ?_, ?_⟩
    · trivial
    · rw [foldl_disconnect_dashboard]
      apply List.filter_congr
      intro c hcmem
      rw [contains_filter_of_mem _ _ _ hcmem]
    · rw [foldl_disconnect_active]
    · rw [foldl_disconnect_clientInfo]

/-- A manager step that is not a session connect cannot start the metrics
task. -/
theorem mgr_step_preserves_no_task {s s1 : Mgr} {a : MgrAct}
    (h : MgrStep s a s1) (ht : s.task = false) (hc : a.isConnect = false) :
    s1.task = false := by
  cases h with
  | connectAudio ws => simp [MgrAct.isConnect] at hc
  | connectDash ws => simp [MgrAct.isConnect] at hc
  | disconnect ws => exact disconnectFn_task_false s ws ht
  | broadcastDash fail =>
    simp only [broadcastToDashboard]
    split_ifs
    · exact ht
    · rw [broadcast_send_loop]
      exact foldl_disconnect_task_false _ _ ht
  | tick fail hT => rw [ht] at hT; exact absurd hT (by simp)
  | reqMetrics ws => exact ht

/-- In a run starting without a metrics task and containing no connect
action, no tick (hence no `system_status` broadcast) can occur. -/
theorem mgrRun_no_task_no_tick {s s' : Mgr} {acts : List MgrAct}
    (hrun : MgrRun s acts s') (ht : s.task = false)
    (hc : ∀ a ∈ acts, a.isConnect = false) : MgrAct.tick ∉ acts := by
  induction hrun with
  | nil => simp
  | @cons s s1 s2 a acts hstep hrest ih =>
    intro hmem
    rcases List.mem_cons.mp hmem with heq | hmem2
    · subst heq
      cases hstep with
      | tick fail hT => rw [ht] at hT; exact absurd hT (by simp)
    · have ht1 := mgr_step_preserves_no_task hstep ht
        (hc a (List.mem_cons_self _ _))
      exact ih ht1 (fun b hb => hc b (List.mem_cons_of_mem _ hb)) hmem2

/-- C3 counterexample: in the concrete manager state with one audio
session `1` and one observer session `2` and the metrics task running,
disconnecting `2` — the last observer session — leaves the observer
registry empty but the metrics task still running, because `disconnect`
only cancels when BOTH registries are empty. -/
theorem disconnect_last_observer_keeps_task :
    (⟨[1], [2], [(1, 0), (2, 0)], true⟩ : Mgr).dashboard = [2] ∧
    (disconnectFn ⟨[1], [2], [(1, 0), (2, 0)], true⟩ 2).dashboard = [] ∧
    (disconnectFn ⟨[1], [2], [(1, 0), (2, 0)], true⟩ 2).task = true := by
  refine ⟨rfl, by decide, by decide⟩

/-- C3 amended: a disconnect that leaves BOTH registries (audio and
observer) empty cancels the periodic metrics task, and from any state with
no running task, a run that performs no connect action can never tick —
no further `system_status` broadcasts occur after the cancellation. -/
theorem disconnect_cancels_task_then_no_broadcasts :
    (∀ (s : Mgr) (ws : ℕ),
      (disconnectFn s ws).active = [] → (disconnectFn s ws).dashboard = [] →
      (disconnectFn s ws).task = false) ∧
    (∀ (s s' : Mgr) (acts : List MgrAct), MgrRun s acts s' →
      s.task = false → (∀ a ∈ acts, a.isConnect = false) →
      MgrAct.tick ∉ acts) := by
  constructor
  · intro s ws h1 h2
    rw [disconnectFn_active] at h1
    rw [disconnectFn_dashboard] at h2
    simp only [disconnectFn]
    rw [h1, h2]
    simpa using stopMetrics_task _
  · intro s s' acts hrun ht hc
    exact mgrRun_no_task_no_tick hrun ht hc

/-- C3 witness: disconnecting the sole observer of a manager with no audio
sessions cancels the task, and a concrete task-free run consisting of one
disconnect contains no tick. -/
theorem disconnect_cancel_witness :
    (disconnectFn ⟨[], [7], [(7, 0)], true⟩ 7).task = false ∧
    MgrAct.tick ∉ [MgrAct.disconnect 5] :=
  ⟨disconnect_cancels_task_then_no_broadcasts.1 ⟨[], [7], [(7, 0)], true⟩ 7
     (by decide) (by decide),
   disconnect_cancels_task_then_no_broadcasts.2 ⟨[], [], [], false⟩
     (disconnectFn ⟨[], [], [], false⟩ 5) [MgrAct.disconnect 5]
     (MgrRun.cons (MgrStep.disconnect _ 5) (MgrRun.nil _)) rfl
     (by intro a ha; simp at ha; subst ha; rfl)⟩

end VoiceTrain
